import Mathlib

/-!
Shallow embedding of the `AddData` middleware of `poem`
(src/poem/src/middleware/add_data.rs) together with the `Request`,
Extension-Store, `Endpoint` and `Middleware` abstractions it builds on.

The `AddData` and `AddDataEndpoint` definitions are translated from the
Rust source.  The surrounding abstractions (`Extensions`, `Request`,
`Endpoint`, `Middleware`, `clone`) are not part of the source file and are
modelled from the specification, as noted on each definition.

Rust type identities are modelled by an abstract key type `κ` with
decidable equality together with a family `V : κ → Type` assigning to each
type identity the type of its values; a Rust type `T` is a key `k` with
value type `V k`.  The asynchronous `call` is modelled as a pure function
returning `Except ε Out` (Rust `Result<Output>`).
-/

/-- Modelled from the spec: `clone` of a duplicable value.  The Rust
`Clone` bound promises a behaviourally equivalent independent copy; in the
embedding duplication is the identity on the value. -/
def clone {α : Type} (v : α) : α := v

/-- Modelled from the spec (§3, §4.3): the per-request heterogeneous
Extension Store, a mapping from type identity to at most one value of that
type, kept as a list of dependent pairs with unique keys maintained by
`insert`. -/
structure Extensions (κ : Type) (V : κ → Type) where
  entries : List (Sigma V)

/-- Modelled from the spec (§3): the store is created empty with the
request. -/
def Extensions.empty {κ : Type} {V : κ → Type} : Extensions κ V := ⟨[]⟩

/-- Lookup of a key in a list of dependent entries: first match wins. -/
def getEntries {κ : Type} [DecidableEq κ] {V : κ → Type} (k : κ) :
    List (Sigma V) → Option (V k)
  | [] => none
  | ⟨k', v⟩ :: rest => if h : k' = k then some (h ▸ v) else getEntries k rest

/-- Modelled from the spec (§4.3): `get<T>()` returns the stored value of
type `T` if present, else an absence signal. -/
def Extensions.get {κ : Type} [DecidableEq κ] {V : κ → Type}
    (ext : Extensions κ V) (k : κ) : Option (V k) :=
  getEntries k ext.entries

/-- Modelled from the spec (§4.3): `insert(value)` stores the value under
the type identity of `T`, overwriting any prior entry of that exact type;
it has no failure mode. -/
def Extensions.insert {κ : Type} [DecidableEq κ] {V : κ → Type}
    (ext : Extensions κ V) (k : κ) (v : V k) : Extensions κ V :=
  ⟨⟨k, v⟩ :: ext.entries.filter fun e => !decide (e.1 = k)⟩

/-- Modelled from the spec (§3): a `Request` owns its Extension Store; the
`uri` field stands for all of the request state other than the store,
which is out of the core's scope. -/
structure Request (κ : Type) (V : κ → Type) where
  uri : String
  extensions : Extensions κ V

/-- Modelled from the spec (§4.1): an `Endpoint` consumes a `Request` and
produces a `Result` of an endpoint-defined output type; the asynchronous
execution is modelled as a pure function. -/
structure Endpoint (κ : Type) (V : κ → Type) (ε : Type) (Out : Type) where
  call : Request κ V → Except ε Out

/-- Modelled from the spec (§4.2): a `Middleware` is a setup-time
transform from one endpoint into another over a fixed output type. -/
def Middleware (κ : Type) (V : κ → Type) (ε : Type) (Out : Type) : Type :=
  Endpoint κ V ε Out → Endpoint κ V ε Out

/-- Modelled from the spec (§4.2): chaining two middleware, the first
argument applied last, hence outermost. -/
def Middleware.chain {κ : Type} {V : κ → Type} {ε Out : Type}
    (outer inner : Middleware κ V ε Out) : Middleware κ V ε Out :=
  fun ep => outer (inner ep)

/-- From the source (`pub struct AddData<T> { value: T }`): the middleware
descriptor holding one value of type `T`, here key `k` with value type
`V k`. -/
structure AddData (κ : Type) (V : κ → Type) (k : κ) where
  value : V k

/-- From the source (`AddData::new`): constructs the middleware from a
value. -/
def AddData.new {κ : Type} {V : κ → Type} {k : κ} (value : V k) :
    AddData κ V k :=
  { value := value }

/-- From the source (`pub struct AddDataEndpoint<E, T> { inner: E,
value: T }`): the wrapping endpoint produced by `transform`. -/
structure AddDataEndpoint (κ : Type) (V : κ → Type) (ε : Type) (Out : Type)
    (k : κ) where
  inner : Endpoint κ V ε Out
  value : V k

/-- From the source (`Middleware::transform` for `AddData`): wraps the
given endpoint, cloning the held value into the new wrapping endpoint. -/
def AddData.transform {κ : Type} {V : κ → Type} {ε Out : Type} {k : κ}
    (m : AddData κ V k) (ep : Endpoint κ V ε Out) :
    AddDataEndpoint κ V ε Out k :=
  { inner := ep, value := clone m.value }

/-- From the source (`Endpoint::call` for `AddDataEndpoint`): clone the
held value, insert it into the request's Extension Store, then delegate to
the wrapped endpoint and return its result unchanged. -/
def AddDataEndpoint.call {κ : Type} [DecidableEq κ] {V : κ → Type}
    {ε Out : Type} {k : κ} (e : AddDataEndpoint κ V ε Out k)
    (req : Request κ V) : Except ε Out :=
  e.inner.call { req with extensions := req.extensions.insert k (clone e.value) }

/-- From the source (`impl Endpoint for AddDataEndpoint`): the wrapping
endpoint viewed through the `Endpoint` abstraction. -/
def AddDataEndpoint.toEndpoint {κ : Type} [DecidableEq κ] {V : κ → Type}
    {ε Out : Type} {k : κ} (e : AddDataEndpoint κ V ε Out k) :
    Endpoint κ V ε Out :=
  ⟨e.call⟩

/-- From the source, via the spec's `Middleware` abstraction: `AddData` as
a middleware over a fixed output type. -/
def AddData.middleware {κ : Type} [DecidableEq κ] {V : κ → Type}
    {ε Out : Type} {k : κ} (m : AddData κ V k) : Middleware κ V ε Out :=
  fun ep => (m.transform ep).toEndpoint

/-- Two requests processed through one endpoint instance; each handling
receives only its own request. -/
def processTwo {κ : Type} {V : κ → Type} {ε Out : Type}
    (e : Endpoint κ V ε Out) (r1 r2 : Request κ V) :
    Except ε Out × Except ε Out :=
  (e.call r1, e.call r2)

/-! ### Concrete instantiation used for counterexamples and witnesses -/

/-- A concrete value family over numeric type identities: every type
identity stores a string. -/
def StrV : Nat → Type := fun _ => String

/-- A concrete handler endpoint that reports what it observes at type
identity 0 in its request's Extension Store. -/
def obsEndpoint : Endpoint Nat StrV String (Option String) :=
  ⟨fun req => Except.ok (req.extensions.get 0)⟩

/-- A concrete request with an empty Extension Store. -/
def emptyReq : Request Nat StrV :=
  { uri := "/", extensions := Extensions.empty }

/-- The endpoint of the P2 scenario: obsEndpoint wrapped with
AddData.new A, the result wrapped with AddData.new B, so the B layer is
outermost and executes first. -/
def lastWinsComposed : Endpoint Nat StrV String (Option String) :=
  ((AddData.new (V := StrV) (k := 0) "B").transform
    (((AddData.new (V := StrV) (k := 0) "A").transform obsEndpoint).toEndpoint)).toEndpoint

/-- A concrete wrapped endpoint that always fails. -/
def failEndpoint : Endpoint Nat StrV String (Option String) :=
  ⟨fun _ => Except.error "boom"⟩

/-- A concrete AddDataEndpoint whose wrapped endpoint always fails. -/
def failAddDataEndpoint : AddDataEndpoint Nat StrV String (Option String) 0 :=
  { inner := failEndpoint, value := "v" }

/-! ### Store lemmas -/

theorem getEntries_filterNe {κ : Type} [DecidableEq κ] {V : κ → Type}
    (k k' : κ) (h : k' ≠ k) :
    ∀ l : List (Sigma V),
      getEntries k' (l.filter fun e => !decide (e.1 = k)) = getEntries k' l := by
  intro l
  induction l with
  | nil => rfl
  | cons e rest ih =>
    obtain ⟨k₀, v₀⟩ := e
    by_cases hk : k₀ = k
    · subst hk
      have hne : ¬ k₀ = k' := fun hh => h hh.symm
      simp [getEntries, ih, hne]
    · by_cases hk' : k₀ = k'
      · subst hk'
        simp [getEntries, hk]
      · simp [getEntries, hk, hk', ih]

theorem get_insert_same {κ : Type} [DecidableEq κ] {V : κ → Type}
    (ext : Extensions κ V) (k : κ) (v : V k) :
    (ext.insert k v).get k = some v := by
  simp [Extensions.get, Extensions.insert, getEntries]

theorem get_insert_ne {κ : Type} [DecidableEq κ] {V : κ → Type}
    (ext : Extensions κ V) (k k' : κ) (v : V k) (h : k' ≠ k) :
    (ext.insert k v).get k' = ext.get k' := by
  have hne : ¬ k = k' := fun hh => h hh.symm
  simp [Extensions.get, Extensions.insert, getEntries, hne]
  exact getEntries_filterNe k k' h ext.entries

/-! ### Claims -/

/-- Claim C1: invoking the endpoint produced by transforming an endpoint
with AddData.new v on any request delegates to the wrapped endpoint with
the request whose Extension Store has the clone of v inserted, and on that
store the wrapped endpoint observes get k = some (clone v). -/
theorem addData_presence {κ : Type} [DecidableEq κ] {V : κ → Type}
    {ε Out : Type} {k : κ} (v : V k) (ep : Endpoint κ V ε Out)
    (req : Request κ V) :
    ((AddData.new v).transform ep).toEndpoint.call req
        = ep.call { req with extensions := req.extensions.insert k (clone v) }
    ∧ (req.extensions.insert k (clone v)).get k = some (clone v) :=
  ⟨rfl, get_insert_same req.extensions k (clone v)⟩

/-- Claim C2 (counterexample): in the P2 scenario, with AddData.new A
applied first (inner) and AddData.new B applied second (outermost,
executes first), the innermost handler observes A, not B. -/
theorem addData_lastWins_counterexample :
    lastWinsComposed.call emptyReq = Except.ok (some "A")
    ∧ lastWinsComposed.call emptyReq ≠ Except.ok (some "B") := by
  have h1 : lastWinsComposed.call emptyReq = Except.ok (some "A") := rfl
  refine ⟨h1, fun h => ?_⟩
  rw [h1] at h
  exact absurd (Option.some.inj (Except.ok.inj h)) (by decide)

/-- Claim C2 (amended): wrapping E with AddData.new A and then wrapping
the result with AddData.new B (so B's layer is outermost and executes
first) results in the innermost handler observing A, not B: the outer
layer inserts B first, the inner layer then overwrites it with A, and
storage is last-write-wins. -/
theorem addData_lastWins_amended {κ : Type} [DecidableEq κ] {V : κ → Type}
    {ε Out : Type} {k : κ} (A B : V k) (ep : Endpoint κ V ε Out)
    (req : Request κ V) :
    ((AddData.new B).transform
        ((AddData.new A).transform ep).toEndpoint).toEndpoint.call req
        = ep.call { req with extensions :=
            (req.extensions.insert k (clone B)).insert k (clone A) }
    ∧ ((req.extensions.insert k (clone B)).insert k (clone A)).get k
        = some (clone A) :=
  ⟨rfl, get_insert_same _ k (clone A)⟩

/-- Claim C3: the AddData-wrapped endpoint's result is exactly the
wrapped endpoint's result on the extension-inserted request; a success r
is returned exactly as r and a failure er exactly as er. -/
theorem addData_passthrough {κ : Type} [DecidableEq κ] {V : κ → Type}
    {ε Out : Type} {k : κ} (v : V k) (ep : Endpoint κ V ε Out)
    (req : Request κ V) :
    ((AddData.new v).transform ep).toEndpoint.call req
        = ep.call { req with extensions := req.extensions.insert k (clone v) }
    ∧ (∀ r : Out,
        ((AddData.new v).transform ep).toEndpoint.call req = Except.ok r
        ↔ ep.call { req with extensions := req.extensions.insert k (clone v) }
            = Except.ok r)
    ∧ (∀ er : ε,
        ((AddData.new v).transform ep).toEndpoint.call req = Except.error er
        ↔ ep.call { req with extensions := req.extensions.insert k (clone v) }
            = Except.error er) :=
  ⟨rfl, fun _ => Iff.rfl, fun _ => Iff.rfl⟩

/-- Claim C4: middleware chaining is associative, and for two AddData
layers the outermost (applied-last) layer executes first and performs its
insertion, then the inner layer inserts, and the innermost endpoint's
result is returned unchanged through every layer. -/
theorem middleware_chain_assoc_order {κ : Type} [DecidableEq κ]
    {V : κ → Type} {ε Out : Type} (m1 m2 m3 : Middleware κ V ε Out)
    {kB kA : κ} (vB : V kB) (vA : V kA) (ep : Endpoint κ V ε Out)
    (req : Request κ V) :
    Middleware.chain (Middleware.chain m1 m2) m3
        = Middleware.chain m1 (Middleware.chain m2 m3)
    ∧ (Middleware.chain (AddData.middleware (AddData.new vB))
        (AddData.middleware (AddData.new vA)) ep).call req
        = ep.call { req with extensions :=
            (req.extensions.insert kB (clone vB)).insert kA (clone vA) } :=
  ⟨rfl, rfl⟩

/-- Claim C5: transform is pure: it returns an AddDataEndpoint whose
inner field is the given endpoint and whose value field is a clone of the
middleware's value (equal to it), and repeated applications produce
endpoints holding equal clones. -/
theorem addData_transform_pure {κ : Type} {V : κ → Type} {ε Out : Type}
    {k : κ} (m : AddData κ V k) (ep ep2 : Endpoint κ V ε Out) :
    (m.transform ep).inner = ep
    ∧ (m.transform ep).value = clone m.value
    ∧ (m.transform ep).value = m.value
    ∧ (m.transform ep).value = (m.transform ep2).value :=
  ⟨rfl, rfl, rfl, rfl⟩

/-- Claim C6: call reads but never changes the AddDataEndpoint's own
fields: it delegates to the unchanged inner endpoint, and the delegated
request keeps every non-extension field (uri) of the incoming request,
only its Extension Store being replaced by the inserted one. -/
theorem addData_call_frame {κ : Type} [DecidableEq κ] {V : κ → Type}
    {ε Out : Type} {k : κ} (e : AddDataEndpoint κ V ε Out k)
    (req : Request κ V) :
    e.call req = e.inner.call
        { uri := req.uri,
          extensions := req.extensions.insert k (clone e.value) } :=
  rfl

/-- Claim C7: processing two requests through the same AddData-wrapped
endpoint instance, what each wrapped call receives depends only on its own
request and the configured value, never on the other request. -/
theorem addData_no_cross_request_leakage {κ : Type} [DecidableEq κ]
    {V : κ → Type} {ε Out : Type} {k : κ} (v : V k)
    (ep : Endpoint κ V ε Out) (r1 r2 r2' : Request κ V) :
    (processTwo ((AddData.new v).transform ep).toEndpoint r1 r2).1
        = (processTwo ((AddData.new v).transform ep).toEndpoint r1 r2').1
    ∧ (processTwo ((AddData.new v).transform ep).toEndpoint r1 r2).1
        = ep.call { r1 with extensions := r1.extensions.insert k (clone v) }
    ∧ (processTwo ((AddData.new v).transform ep).toEndpoint r1 r2).2
        = ep.call { r2 with extensions := r2.extensions.insert k (clone v) } :=
  ⟨rfl, rfl, rfl⟩

/-- Claim C8: inserting a value under type identity k1 leaves lookup at
any distinct type identity k2 unchanged, and the insertion itself always
succeeds in making the value present under k1. -/
theorem extensions_type_isolation {κ : Type} [DecidableEq κ]
    {V : κ → Type} (ext : Extensions κ V) (k1 k2 : κ) (v : V k1)
    (h : k2 ≠ k1) :
    (ext.insert k1 v).get k2 = ext.get k2
    ∧ (ext.insert k1 v).get k1 = some v :=
  ⟨get_insert_ne ext k1 k2 v h, get_insert_same ext k1 v⟩

/-- Witness for claim C8 at the concrete store over numeric type
identities, keys 0 and 1. -/
theorem extensions_type_isolation_witness :
    (1 : Nat) ≠ 0
    ∧ (((Extensions.empty : Extensions Nat StrV).insert 0 "x").get 1
        = (Extensions.empty : Extensions Nat StrV).get 1
      ∧ ((Extensions.empty : Extensions Nat StrV).insert 0 "x").get 0
        = some "x") :=
  ⟨by decide, extensions_type_isolation Extensions.empty 0 1 "x" (by decide)⟩

/-- Claim C9: the AddDataEndpoint produced by transform has output type
exactly the wrapped endpoint's output type: a success value r of the
wrapped chain is a value of Out, and the wrapped call succeeds with r
exactly when the inner endpoint does. -/
theorem addDataEndpoint_output_type {κ : Type} [DecidableEq κ]
    {V : κ → Type} {ε Out : Type} {k : κ} (v : V k)
    (ep : Endpoint κ V ε Out) (req : Request κ V) (r : Out) :
    ((AddData.new v).transform ep).toEndpoint.call req = Except.ok r
      ↔ ep.call { req with extensions := req.extensions.insert k (clone v) }
          = Except.ok r :=
  Iff.rfl

/-- Claim C10: call performs the clone-and-insert unconditionally before
delegating (the delegated request's store holds the clone at k, whatever
the incoming store held at k), and an error of the wrapped endpoint is
returned as-is, the insertion having been applied and not rolled back. -/
theorem addData_unconditional_insert {κ : Type} [DecidableEq κ]
    {V : κ → Type} {ε Out : Type} {k : κ} (e : AddDataEndpoint κ V ε Out k)
    (req : Request κ V) :
    e.call req = e.inner.call
        { req with extensions := req.extensions.insert k (clone e.value) }
    ∧ (req.extensions.insert k (clone e.value)).get k = some (clone e.value)
    ∧ ∀ er : ε,
        e.inner.call
            { req with extensions := req.extensions.insert k (clone e.value) }
          = Except.error er
        → e.call req = Except.error er :=
  ⟨rfl, get_insert_same req.extensions k (clone e.value), fun _ h => h⟩

/-- Witness for claim C10 on a wrapped endpoint that always fails. -/
theorem addData_unconditional_insert_witness :
    (failAddDataEndpoint.inner.call
        { emptyReq with extensions :=
            emptyReq.extensions.insert 0 (clone failAddDataEndpoint.value) }
      = Except.error "boom")
    ∧ failAddDataEndpoint.call emptyReq = Except.error "boom" :=
  ⟨rfl,
   (addData_unconditional_insert failAddDataEndpoint emptyReq).2.2 "boom" rfl⟩
